import Mathlib

/-!
Cursor pagination over the `bank` table (task5.2.go)

A shallow embedding of the program: the `Bank` record, the error values built
with `errors.New` / `errors.Wrap`, the two single-row SQL statements evaluated
over an explicit table, the store and service layers, the two HTTP handlers
and the response helpers over an explicit response-writer state.

Conventions.
* A Go result `(*Bank, error)` is the pair `Option Bank × Option GoError`.
* The database handle is explicit state (`DB`): the rows of table `bank` in
  the engine's row order, the failure the driver reports for a query (if any),
  and the log of the calls made on the handle. Functions that use the handle
  return the new state next to their result.
* `time.Time` values are instants, ordered as the database orders timestamps.
* `time.Parse` belongs to the standard library; the handlers take it as the
  argument `parse`.
-/

namespace Task5

/-! ## Data model -/

/-- An instant (`time.Time`), as the database compares timestamps. -/
abbrev Time := Int

/-- The zero value `time.Time{}` (January 1, year 1, 00:00:00 UTC), in seconds
relative to the Unix epoch. -/
def Time.zero : Time := -62135596800

/-- The Go struct `Bank`. -/
structure Bank where
  ID : Int
  Code : String
  Name : String
  Currency : String
  URL : String
  CreateAt : Time
  CreateBy : String
  UpdateAt : Time
  UpdateBy : String
deriving DecidableEq, Repr

/-! ## Errors -/

/-- Go error values that occur in the program.
* `errNoRows` is the sentinel `sql.ErrNoRows`;
* `fundamental msg` is `errors.New(msg)`;
* `withMessage cause msg` is `errors.Wrap(cause, msg)`;
* `foreign msg` is any other error value (driver, context, `time.Parse`). -/
inductive GoError where
  | errNoRows
  | fundamental (msg : String)
  | withMessage (cause : GoError) (msg : String)
  | foreign (msg : String)
deriving DecidableEq, Repr

/-- The method `Error()`. -/
def GoError.Error : GoError → String
  | .errNoRows => "sql: no rows in result set"
  | .fundamental msg => msg
  | .withMessage cause msg => msg ++ ": " ++ cause.Error
  | .foreign msg => msg

/-- The cause an error wraps, if it wraps one: the error handed to
`errors.Wrap`, which unwrapping the value `errors.Wrap` builds reaches. -/
def GoError.Unwrap : GoError → Option GoError
  | .withMessage cause _ => some cause
  | _ => none

/-- The function `errors.Is(err, target)`: `err` or an error in its chain of
wrapped causes equals `target`. -/
def errorsIs : GoError → GoError → Bool
  | .withMessage cause msg, target =>
      decide (GoError.withMessage cause msg = target) || errorsIs cause target
  | err, target => decide (err = target)

/-- The call `errors.New(message)`. -/
def errorsNew (message : String) : GoError := .fundamental message

/-- The call `errors.Wrap(err, message)` on a non-nil `err`. -/
def errorsWrap (err : GoError) (message : String) : GoError := .withMessage err message

/-! ## The database -/

/-- The comparison of a `WHERE update_at ? arg` clause. -/
inductive Cmp where
  | gt
  | lt
deriving DecidableEq, Repr

/-- The direction of an `ORDER BY update_at` clause. -/
inductive Order where
  | asc
  | desc
deriving DecidableEq, Repr

/-- A statement `SELECT id, code, name, currency, url, create_at, create_by,
update_at, update_by FROM bank WHERE update_at cmp ? ORDER BY update_at order
LIMIT limit`. -/
structure Select where
  cmp : Cmp
  order : Order
  limit : Nat
deriving DecidableEq, Repr

/-- The `WHERE` clause on one row. -/
def Select.matches (q : Select) (arg : Time) (b : Bank) : Bool :=
  match q.cmp with
  | .gt => decide (arg < b.UpdateAt)
  | .lt => decide (b.UpdateAt < arg)

/-- The `ORDER BY` clause: rows sorted on `update_at`, rows with equal
`update_at` staying in the engine's row order. -/
def Select.sort (q : Select) (rows : List Bank) : List Bank :=
  match q.order with
  | .asc => rows.insertionSort (fun a b => a.UpdateAt ≤ b.UpdateAt)
  | .desc => rows.insertionSort (fun a b => b.UpdateAt ≤ a.UpdateAt)

/-- The rows a statement yields on a table. -/
def Select.rows (q : Select) (bank : List Bank) (arg : Time) : List Bank :=
  (q.sort (bank.filter (q.matches arg))).take q.limit

/-- A `context.Context`: the value of `ctx.Err()` (nil while the request is
live, the cancellation or deadline error afterwards). -/
structure Context where
  err : Option GoError
deriving DecidableEq, Repr

/-- The state behind `*sql.DB`. -/
structure DB where
  /-- Rows of table `bank`, in the engine's row order. -/
  bank : List Bank
  /-- The failure the driver reports for a query, if any. -/
  failure : Option GoError
  /-- The calls of `QueryRowContext` made so far, oldest first. -/
  calls : List (Select × Time)
deriving DecidableEq, Repr

/-- The call `db.QueryRowContext(ctx, rawSQL, arg).Scan(...)`: the scanned row,
or the error `Scan` returns; `sql.ErrNoRows` when the statement yields no row. -/
def DB.QueryRowContext (db : DB) (ctx : Context) (rawSQL : Select) (arg : Time) :
    Except GoError Bank × DB :=
  let db' : DB := { db with calls := db.calls ++ [(rawSQL, arg)] }
  match ctx.err with
  | some e => (.error e, db')
  | none =>
    match db.failure with
    | some e => (.error e, db')
    | none =>
      match rawSQL.rows db.bank arg with
      | [] => (.error .errNoRows, db')
      | row :: _ => (.ok row, db')

/-! ## Store -/

/-- The Go struct `store`. -/
structure store where
  db : DB
deriving DecidableEq, Repr

/-- The statement of `getNextPageBankByID`. -/
def nextSQL : Select := { cmp := .gt, order := .asc, limit := 1 }

/-- The statement of `getPreviousPageBankByID`. -/
def previousSQL : Select := { cmp := .lt, order := .desc, limit := 1 }

/-- The method `store.getNextPageBankByID`. -/
def store.getNextPageBankByID (s : store) (ctx : Context) (currentUpdateAt : Time) :
    (Option Bank × Option GoError) × store :=
  match s.db.QueryRowContext ctx nextSQL currentUpdateAt with
  | (.error err, db') =>
    if errorsIs err .errNoRows then
      ((none, some (errorsNew "no next page found")), { db := db' })
    else
      ((none, some (errorsWrap err "failed to get next page bank")), { db := db' })
  | (.ok nextBank, db') => ((some nextBank, none), { db := db' })

/-- The method `store.getPreviousPageBankByID`. -/
def store.getPreviousPageBankByID (s : store) (ctx : Context) (currentUpdateAt : Time) :
    (Option Bank × Option GoError) × store :=
  match s.db.QueryRowContext ctx previousSQL currentUpdateAt with
  | (.error err, db') =>
    if errorsIs err .errNoRows then
      ((none, some (errorsNew "no previous page found")), { db := db' })
    else
      ((none, some (errorsWrap err "failed to get previous page bank")), { db := db' })
  | (.ok prevBank, db') => ((some prevBank, none), { db := db' })

/-! ## Service -/

/-- The Go struct `service`. -/
structure service where
  store : store
deriving DecidableEq, Repr

/-- The method `service.NextPage`. -/
def service.NextPage (s : service) (ctx : Context) (currentUpdateAt : Time) :
    (Option Bank × Option GoError) × service :=
  match s.store.getNextPageBankByID ctx currentUpdateAt with
  | ((_, some err), st) => ((none, some err), { store := st })
  | ((nextBank, none), st) => ((nextBank, none), { store := st })

/-- The method `service.PreviousPage`. -/
def service.PreviousPage (s : service) (ctx : Context) (currentUpdateAt : Time) :
    (Option Bank × Option GoError) × service :=
  match s.store.getPreviousPageBankByID ctx currentUpdateAt with
  | ((_, some err), st) => ((none, some err), { store := st })
  | ((prevBank, none), st) => ((prevBank, none), { store := st })

/-! ## HTTP boundary -/

/-- The values passed to `json.NewEncoder(w).Encode`: a `*Bank` (possibly nil)
or a `map[string]string`, the latter as its entries in key order. -/
inductive Data where
  | bank (b : Option Bank)
  | stringMap (entries : List (String × String))
deriving DecidableEq, Repr

/-- A scalar of a JSON document. -/
inductive JsonScalar where
  | int (n : Int)
  | str (s : String)
  | time (t : Time)
deriving DecidableEq, Repr

/-- A JSON document as the program produces them: `null` or a flat object. -/
inductive Json where
  | null
  | object (fields : List (String × JsonScalar))
deriving DecidableEq, Repr

/-- The JSON encoding of a `Bank`, fields named by the struct tags. -/
def Bank.toJson (b : Bank) : Json :=
  .object [("id", .int b.ID), ("code", .str b.Code), ("name", .str b.Name),
    ("currency", .str b.Currency), ("url", .str b.URL), ("create_at", .time b.CreateAt),
    ("create_by", .str b.CreateBy), ("update_at", .time b.UpdateAt),
    ("update_by", .str b.UpdateBy)]

/-- The document `Encode(data)` writes. -/
def jsonEncode : Data → Json
  | .bank none => .null
  | .bank (some b) => b.toJson
  | .stringMap entries => .object (entries.map (fun kv => (kv.1, JsonScalar.str kv.2)))

/-- The state of an `http.ResponseWriter`. -/
structure ResponseWriter where
  /-- The header map returned by `Header()`. -/
  header : List (String × String)
  /-- Whether `WriteHeader` has been called (explicitly or by `Write`). -/
  wroteHeader : Bool
  /-- The status code sent. -/
  status : Nat
  /-- The headers sent: the header map as it stood when `WriteHeader` ran. -/
  sent : List (String × String)
  /-- The documents written to the body, oldest first. -/
  body : List Json
deriving DecidableEq, Repr

/-- The writer a handler receives: nothing set, nothing written. -/
def ResponseWriter.fresh : ResponseWriter :=
  { header := [], wroteHeader := false, status := 0, sent := [], body := [] }

/-- The method `WriteHeader(statusCode)`: the first call sends the status code
with the header map as it stands; later calls are ignored. -/
def ResponseWriter.WriteHeader (w : ResponseWriter) (statusCode : Nat) : ResponseWriter :=
  if w.wroteHeader then w
  else { w with wroteHeader := true, status := statusCode, sent := w.header }

/-- The call `Header().Set(key, value)`. -/
def ResponseWriter.HeaderSet (w : ResponseWriter) (key value : String) : ResponseWriter :=
  { w with header := (key, value) :: w.header.filter (fun kv => decide (kv.1 ≠ key)) }

/-- The method `Write`, with the document written: an implicit
`WriteHeader(200)` when no header was written before. -/
def ResponseWriter.Write (w : ResponseWriter) (doc : Json) : ResponseWriter :=
  let w1 := if w.wroteHeader then w else w.WriteHeader 200
  { w1 with body := w1.body ++ [doc] }

/-- The constants `http.StatusOK`, `http.StatusBadRequest`,
`http.StatusInternalServerError`. -/
def StatusOK : Nat := 200

def StatusBadRequest : Nat := 400

def StatusInternalServerError : Nat := 500

/-- The function `responseJSON`. -/
def responseJSON (w : ResponseWriter) (statusCode : Nat) (data : Data) : ResponseWriter :=
  let w1 := w.WriteHeader statusCode
  let w2 := w1.HeaderSet "Content-Type" "application/json"
  w2.Write (jsonEncode data)

/-- The function `responseError`. -/
def responseError (w : ResponseWriter) (statusCode : Nat) (err : GoError) : ResponseWriter :=
  responseJSON w statusCode (.stringMap [("error", err.Error)])

/-- An `*http.Request`: the parameters of the URL query string in order of
appearance, and the request context. -/
structure Request where
  query : List (String × String)
  ctx : Context
deriving DecidableEq, Repr

/-- The call `r.URL.Query().Get(key)`: the first value of `key`, the empty
string when there is none. -/
def Request.queryGet (r : Request) (key : String) : String :=
  match r.query.find? (fun kv => decide (kv.1 = key)) with
  | some kv => kv.2
  | none => ""

/-- The function `getCurrentUpdateAtFromRequest`; `parse s` stands for
`time.Parse(time.RFC3339, s)`. -/
def getCurrentUpdateAtFromRequest (parse : String → Except GoError Time) (r : Request) :
    Time × Option GoError :=
  let currentUpdateAtStr := r.queryGet "current_update_at"
  if currentUpdateAtStr = "" then
    (Time.zero, some (errorsNew "missing current_update_at parameter"))
  else
    match parse currentUpdateAtStr with
    | .error err => (Time.zero, some (errorsWrap err "failed to parse current_update_at"))
    | .ok currentUpdateAt => (currentUpdateAt, none)

/-- The function `NextPageHandler`, applied to a writer and a request. -/
def NextPageHandler (parse : String → Except GoError Time) (s : service)
    (w : ResponseWriter) (r : Request) : ResponseWriter × service :=
  match getCurrentUpdateAtFromRequest parse r with
  | (_, some _) => (responseError w StatusBadRequest (errorsNew "invalid timestamp"), s)
  | (currentUpdateAt, none) =>
    match s.NextPage r.ctx currentUpdateAt with
    | ((_, some err), s') => (responseError w StatusInternalServerError err, s')
    | ((nextBank, none), s') => (responseJSON w StatusOK (.bank nextBank), s')

/-- The function `PreviousPageHandler`, applied to a writer and a request. -/
def PreviousPageHandler (parse : String → Except GoError Time) (s : service)
    (w : ResponseWriter) (r : Request) : ResponseWriter × service :=
  match getCurrentUpdateAtFromRequest parse r with
  | (_, some _) => (responseError w StatusBadRequest (errorsNew "invalid timestamp"), s)
  | (currentUpdateAt, none) =>
    match s.PreviousPage r.ctx currentUpdateAt with
    | ((_, some err), s') => (responseError w StatusInternalServerError err, s')
    | ((prevBank, none), s') => (responseJSON w StatusOK (.bank prevBank), s')

/-! ## Forward traversal -/

/-- The client loop "call `NextPage(C)`, then call `NextPage` with the
`update_at` of the record just returned", for at most `fuel` calls: the records
returned, the error that ended the loop (`none` when the calls ran out), and
the final service state. -/
def forwardTraversal : Nat → service → Context → Time →
    List Bank × Option GoError × service
  | 0, s, _, _ => ([], none, s)
  | fuel + 1, s, ctx, cursor =>
    match s.NextPage ctx cursor with
    | ((_, some err), s') => ([], some err, s')
    | ((none, none), s') => ([], none, s')
    | ((some b, none), s') =>
      let rest := forwardTraversal fuel s' ctx b.UpdateAt
      (b :: rest.1, rest.2.1, rest.2.2)

/-! ## Scenario data -/

/-- A record whose only distinguishing fields are `id` and `update_at`. -/
def mkBank (id : Int) (updateAt : Time) : Bank :=
  { ID := id, Code := "", Name := "", Currency := "", URL := "",
    CreateAt := 0, CreateBy := "", UpdateAt := updateAt, UpdateBy := "" }

/-- A healthy database holding the given rows, with no call made yet. -/
def healthy (rows : List Bank) : service :=
  { store := { db := { bank := rows, failure := none, calls := [] } } }

/-- A live request context. -/
def live : Context := { err := none }

/-- The table of the spec's scenario: `update_at` 2024-01-01, 2024-01-02 and
2024-01-03 (midnight UTC), as seconds since the Unix epoch. -/
def scenario : List Bank :=
  [mkBank 1 1704067200, mkBank 2 1704153600, mkBank 3 1704240000]

/-- The values of `time.Parse(time.RFC3339, s)` on the strings the scenarios
use; every other string is treated as unparseable. -/
def scenarioParse (s : String) : Except GoError Time :=
  if s = "2024-01-01T00:00:00Z" then .ok 1704067200
  else if s = "2024-01-02T00:00:00Z" then .ok 1704153600
  else if s = "2024-01-03T00:00:00Z" then .ok 1704240000
  else .error (.foreign ("parsing time " ++ s))

/-- A table with a single record, at instant 3. -/
def lonely : List Bank := [mkBank 1 3]

/-- A table in which two records share one `update_at`. -/
def tied : List Bank := [mkBank 1 10, mkBank 2 20, mkBank 3 20, mkBank 4 30]

/-- A store whose driver reports a connection failure. -/
def unreachable : store :=
  { db := { bank := scenario, failure := some (.foreign "connection refused"), calls := [] } }

/-- A request context that has been cancelled: `ctx.Err()` is
`context.Canceled`. -/
def cancelled : Context := { err := some (.foreign "context canceled") }

/-- A record with every field set to a value of its own. -/
def sampleBank : Bank :=
  { ID := 7, Code := "BCA", Name := "Bank Central Asia", Currency := "IDR",
    URL := "https://bca.example", CreateAt := 1700000000, CreateBy := "alice",
    UpdateAt := 1704153600, UpdateBy := "bob" }

/-- The scenario's table with `sampleBank` as its 2024-01-02 record. -/
def ledger : List Bank := [mkBank 1 1704067200, sampleBank, mkBank 3 1704240000]

/-- A request carrying the given query parameters on a live context. -/
def get (query : List (String × String)) : Request := { query := query, ctx := live }

/-! ## The two statements on a table -/

instance updateAtLe_total : IsTotal Bank (fun a b => a.UpdateAt ≤ b.UpdateAt) :=
  ⟨fun a b => le_total a.UpdateAt b.UpdateAt⟩

instance updateAtLe_trans : IsTrans Bank (fun a b => a.UpdateAt ≤ b.UpdateAt) :=
  ⟨fun _ _ _ h₁ h₂ => le_trans h₁ h₂⟩

instance updateAtGe_total : IsTotal Bank (fun a b => b.UpdateAt ≤ a.UpdateAt) :=
  ⟨fun a b => le_total b.UpdateAt a.UpdateAt⟩

instance updateAtGe_trans : IsTrans Bank (fun a b => b.UpdateAt ≤ a.UpdateAt) :=
  ⟨fun _ _ _ h₁ h₂ => le_trans h₂ h₁⟩

/-- The first row of a sorted table is a row of the table and is related to
every row of it. -/
theorem head_insertionSort (r : Bank → Bank → Prop) [DecidableRel r] [IsTotal Bank r]
    [IsTrans Bank r] (l : List Bank) (x : Bank) (xs : List Bank)
    (h : l.insertionSort r = x :: xs) : x ∈ l ∧ ∀ y ∈ l, r x y := by
  have hperm := List.perm_insertionSort r l
  have hsorted := List.sorted_insertionSort r l
  rw [h] at hperm hsorted
  refine ⟨hperm.subset (List.mem_cons_self x xs), fun y hy => ?_⟩
  have hy' : y ∈ x :: xs := hperm.symm.subset hy
  rcases List.mem_cons.1 hy' with rfl | hmem
  · exact (total_of r y y).elim id id
  · exact List.rel_of_sorted_cons hsorted y hmem

/-- Sorting yields no row only on the empty table. -/
theorem insertionSort_eq_nil (r : Bank → Bank → Prop) [DecidableRel r] (l : List Bank)
    (h : l.insertionSort r = []) : l = [] := by
  have hperm := List.perm_insertionSort r l
  rw [h] at hperm
  exact List.Perm.eq_nil hperm.symm

theorem nextSQL_rows_eq (bank : List Bank) (c : Time) :
    nextSQL.rows bank c = ((bank.filter (nextSQL.matches c)).insertionSort
      (fun a b => a.UpdateAt ≤ b.UpdateAt)).take 1 := rfl

theorem previousSQL_rows_eq (bank : List Bank) (c : Time) :
    previousSQL.rows bank c = ((bank.filter (previousSQL.matches c)).insertionSort
      (fun a b => b.UpdateAt ≤ a.UpdateAt)).take 1 := rfl

theorem nextSQL_matches (c : Time) (b : Bank) :
    nextSQL.matches c b = true ↔ c < b.UpdateAt := by
  simp [Select.matches, nextSQL]

theorem previousSQL_matches (c : Time) (b : Bank) :
    previousSQL.matches c b = true ↔ b.UpdateAt < c := by
  simp [Select.matches, previousSQL]

/-- The statement of `getNextPageBankByID` yields no row when no row lies after
the cursor. -/
theorem nextSQL_rows_nil (bank : List Bank) (c : Time)
    (h : ∀ b ∈ bank, b.UpdateAt ≤ c) : nextSQL.rows bank c = [] := by
  have hf : bank.filter (nextSQL.matches c) = [] := by
    rw [List.filter_eq_nil_iff]
    intro b hb
    rw [nextSQL_matches]
    exact not_lt.2 (h b hb)
  rw [nextSQL_rows_eq, hf]
  rfl

/-- The statement of `getNextPageBankByID` yields exactly one row when a row
lies after the cursor: a row of the table after the cursor with the least
`update_at` among those. -/
theorem nextSQL_rows_cons (bank : List Bank) (c : Time)
    (h : ∃ b ∈ bank, c < b.UpdateAt) :
    ∃ r, nextSQL.rows bank c = [r] ∧ r ∈ bank ∧ c < r.UpdateAt ∧
      ∀ a ∈ bank, c < a.UpdateAt → r.UpdateAt ≤ a.UpdateAt := by
  obtain ⟨b, hb, hcb⟩ := h
  have hbf : b ∈ bank.filter (nextSQL.matches c) := by
    exact List.mem_filter.2 ⟨hb, (nextSQL_matches c b).2 hcb⟩
  cases hs : (bank.filter (nextSQL.matches c)).insertionSort
      (fun a b => a.UpdateAt ≤ b.UpdateAt) with
  | nil =>
    have := insertionSort_eq_nil _ _ hs
    rw [this] at hbf
    exact absurd hbf (List.not_mem_nil b)
  | cons x xs =>
    obtain ⟨hx, hmin⟩ := head_insertionSort _ _ x xs hs
    have hx' : x ∈ bank ∧ c < x.UpdateAt := by
      exact ⟨(List.mem_filter.1 hx).1, (nextSQL_matches c x).1 (List.mem_filter.1 hx).2⟩
    refine ⟨x, ?_, hx'.1, hx'.2, fun a ha hca => ?_⟩
    · rw [nextSQL_rows_eq, hs]
      rfl
    · apply hmin
      exact List.mem_filter.2 ⟨ha, (nextSQL_matches c a).2 hca⟩

/-- The statement of `getPreviousPageBankByID` yields no row when no row lies
before the cursor. -/
theorem previousSQL_rows_nil (bank : List Bank) (c : Time)
    (h : ∀ b ∈ bank, c ≤ b.UpdateAt) : previousSQL.rows bank c = [] := by
  have hf : bank.filter (previousSQL.matches c) = [] := by
    rw [List.filter_eq_nil_iff]
    intro b hb
    rw [previousSQL_matches]
    exact not_lt.2 (h b hb)
  rw [previousSQL_rows_eq, hf]
  rfl

/-- The statement of `getPreviousPageBankByID` yields exactly one row when a
row lies before the cursor: a row of the table before the cursor with the
greatest `update_at` among those. -/
theorem previousSQL_rows_cons (bank : List Bank) (c : Time)
    (h : ∃ b ∈ bank, b.UpdateAt < c) :
    ∃ r, previousSQL.rows bank c = [r] ∧ r ∈ bank ∧ r.UpdateAt < c ∧
      ∀ a ∈ bank, a.UpdateAt < c → a.UpdateAt ≤ r.UpdateAt := by
  obtain ⟨b, hb, hcb⟩ := h
  have hbf : b ∈ bank.filter (previousSQL.matches c) := by
    exact List.mem_filter.2 ⟨hb, (previousSQL_matches c b).2 hcb⟩
  cases hs : (bank.filter (previousSQL.matches c)).insertionSort
      (fun a b => b.UpdateAt ≤ a.UpdateAt) with
  | nil =>
    have := insertionSort_eq_nil _ _ hs
    rw [this] at hbf
    exact absurd hbf (List.not_mem_nil b)
  | cons x xs =>
    obtain ⟨hx, hmax⟩ := head_insertionSort _ _ x xs hs
    have hx' : x ∈ bank ∧ x.UpdateAt < c := by
      exact ⟨(List.mem_filter.1 hx).1, (previousSQL_matches c x).1 (List.mem_filter.1 hx).2⟩
    refine ⟨x, ?_, hx'.1, hx'.2, fun a ha hca => ?_⟩
    · rw [previousSQL_rows_eq, hs]
      rfl
    · apply hmax
      exact List.mem_filter.2 ⟨ha, (previousSQL_matches c a).2 hca⟩

/-! ## The store on a database that answers -/

/-- The call on the handle when the context is live and the driver reports no
failure: the first row the statement yields, `sql.ErrNoRows` when there is
none, and the call logged. -/
theorem QueryRowContext_ok (db : DB) (ctx : Context) (q : Select) (arg : Time)
    (hctx : ctx.err = none) (hdb : db.failure = none) :
    db.QueryRowContext ctx q arg =
      ((match q.rows db.bank arg with
        | [] => Except.error GoError.errNoRows
        | row :: _ => Except.ok row),
       { db with calls := db.calls ++ [(q, arg)] }) := by
  unfold DB.QueryRowContext
  rw [hctx, hdb]
  cases q.rows db.bank arg <;> rfl

/-- Every call on the handle is logged, whatever its outcome, and leaves the
table and the failure state as they are. -/
theorem QueryRowContext_state (db : DB) (ctx : Context) (q : Select) (arg : Time) :
    (db.QueryRowContext ctx q arg).2 = { db with calls := db.calls ++ [(q, arg)] } := by
  unfold DB.QueryRowContext
  cases ctx.err with
  | some e => rfl
  | none =>
    cases db.failure with
    | some e => rfl
    | none => cases q.rows db.bank arg <;> rfl

theorem getNextPageBankByID_state (s : store) (ctx : Context) (c : Time) :
    (s.getNextPageBankByID ctx c).2 =
      { db := { s.db with calls := s.db.calls ++ [(nextSQL, c)] } } := by
  have h := QueryRowContext_state s.db ctx nextSQL c
  unfold store.getNextPageBankByID
  rcases hq : s.db.QueryRowContext ctx nextSQL c with ⟨res, db'⟩
  rw [hq] at h
  cases res with
  | error e => by_cases he : errorsIs e .errNoRows <;> simp [he, ← h]
  | ok b => simp [← h]

theorem getPreviousPageBankByID_state (s : store) (ctx : Context) (c : Time) :
    (s.getPreviousPageBankByID ctx c).2 =
      { db := { s.db with calls := s.db.calls ++ [(previousSQL, c)] } } := by
  have h := QueryRowContext_state s.db ctx previousSQL c
  unfold store.getPreviousPageBankByID
  rcases hq : s.db.QueryRowContext ctx previousSQL c with ⟨res, db'⟩
  rw [hq] at h
  cases res with
  | error e => by_cases he : errorsIs e .errNoRows <;> simp [he, ← h]
  | ok b => simp [← h]

/-- The result of `getNextPageBankByID` when the query does not fail. -/
theorem getNextPageBankByID_ok (s : store) (ctx : Context) (c : Time)
    (hctx : ctx.err = none) (hdb : s.db.failure = none) :
    (s.getNextPageBankByID ctx c).1 =
      (match nextSQL.rows s.db.bank c with
       | [] => (none, some (GoError.fundamental "no next page found"))
       | row :: _ => (some row, none)) := by
  unfold store.getNextPageBankByID
  rw [QueryRowContext_ok s.db ctx nextSQL c hctx hdb]
  cases nextSQL.rows s.db.bank c <;> rfl

/-- The result of `getPreviousPageBankByID` when the query does not fail. -/
theorem getPreviousPageBankByID_ok (s : store) (ctx : Context) (c : Time)
    (hctx : ctx.err = none) (hdb : s.db.failure = none) :
    (s.getPreviousPageBankByID ctx c).1 =
      (match previousSQL.rows s.db.bank c with
       | [] => (none, some (GoError.fundamental "no previous page found"))
       | row :: _ => (some row, none)) := by
  unfold store.getPreviousPageBankByID
  rw [QueryRowContext_ok s.db ctx previousSQL c hctx hdb]
  cases previousSQL.rows s.db.bank c <;> rfl

/-- On a database that answers, `getNextPageBankByID` returns a record exactly
when a row lies after the cursor, and then one with the least `update_at`. -/
theorem getNextPageBankByID_some (s : store) (ctx : Context) (c : Time)
    (hctx : ctx.err = none) (hdb : s.db.failure = none)
    (h : ∃ b ∈ s.db.bank, c < b.UpdateAt) :
    ∃ r, (s.getNextPageBankByID ctx c).1 = (some r, none) ∧ r ∈ s.db.bank ∧
      c < r.UpdateAt ∧ ∀ a ∈ s.db.bank, c < a.UpdateAt → r.UpdateAt ≤ a.UpdateAt := by
  obtain ⟨r, hr, hmem, hlt, hmin⟩ := nextSQL_rows_cons s.db.bank c h
  exact ⟨r, by rw [getNextPageBankByID_ok s ctx c hctx hdb, hr], hmem, hlt, hmin⟩

theorem getNextPageBankByID_none (s : store) (ctx : Context) (c : Time)
    (hctx : ctx.err = none) (hdb : s.db.failure = none)
    (h : ∀ b ∈ s.db.bank, b.UpdateAt ≤ c) :
    (s.getNextPageBankByID ctx c).1 = (none, some (GoError.fundamental "no next page found")) := by
  rw [getNextPageBankByID_ok s ctx c hctx hdb, nextSQL_rows_nil s.db.bank c h]

theorem getPreviousPageBankByID_some (s : store) (ctx : Context) (c : Time)
    (hctx : ctx.err = none) (hdb : s.db.failure = none)
    (h : ∃ b ∈ s.db.bank, b.UpdateAt < c) :
    ∃ r, (s.getPreviousPageBankByID ctx c).1 = (some r, none) ∧ r ∈ s.db.bank ∧
      r.UpdateAt < c ∧ ∀ a ∈ s.db.bank, a.UpdateAt < c → a.UpdateAt ≤ r.UpdateAt := by
  obtain ⟨r, hr, hmem, hlt, hmax⟩ := previousSQL_rows_cons s.db.bank c h
  exact ⟨r, by rw [getPreviousPageBankByID_ok s ctx c hctx hdb, hr], hmem, hlt, hmax⟩

theorem getPreviousPageBankByID_none (s : store) (ctx : Context) (c : Time)
    (hctx : ctx.err = none) (hdb : s.db.failure = none)
    (h : ∀ b ∈ s.db.bank, c ≤ b.UpdateAt) :
    (s.getPreviousPageBankByID ctx c).1 =
      (none, some (GoError.fundamental "no previous page found")) := by
  rw [getPreviousPageBankByID_ok s ctx c hctx hdb, previousSQL_rows_nil s.db.bank c h]

/-! ## Claims about the store -/

/-- C1: when the query does not fail (live context, no driver failure) and some
record of the table has `update_at` strictly greater than the cursor `C`,
`getNextPageBankByID` returns a record `r` of the table with `r.update_at > C`
and no record of the table has `update_at` strictly between `C` and
`r.update_at`: `r` is never a record with a smaller qualifying record before
it, and never a record whose `update_at` equals `C`. -/
theorem getNextPageBankByID_smallest_after (s : store) (ctx : Context) (C : Time)
    (hctx : ctx.err = none) (hdb : s.db.failure = none)
    (h : ∃ b ∈ s.db.bank, C < b.UpdateAt) :
    ∃ r, (s.getNextPageBankByID ctx C).1 = (some r, none) ∧ r ∈ s.db.bank ∧
      C < r.UpdateAt ∧ r.UpdateAt ≠ C ∧
      (∀ a ∈ s.db.bank, ¬ (C < a.UpdateAt ∧ a.UpdateAt < r.UpdateAt)) ∧
      (∀ a ∈ s.db.bank, C < a.UpdateAt → r.UpdateAt ≤ a.UpdateAt) := by
  obtain ⟨r, hr, hmem, hlt, hmin⟩ := getNextPageBankByID_some s ctx C hctx hdb h
  exact ⟨r, hr, hmem, hlt, ne_of_gt hlt,
    fun a ha hbetween => absurd hbetween.2 (not_lt.2 (hmin a ha hbetween.1)), hmin⟩

/-- C2: when the query does not fail (live context, no driver failure) and some
record of the table has `update_at` strictly less than the cursor `C`,
`getPreviousPageBankByID` returns a record `r` of the table with
`r.update_at < C` and no record of the table has `update_at` strictly between
`r.update_at` and `C`; it is never a record whose `update_at` equals `C`. -/
theorem getPreviousPageBankByID_largest_before (s : store) (ctx : Context) (C : Time)
    (hctx : ctx.err = none) (hdb : s.db.failure = none)
    (h : ∃ b ∈ s.db.bank, b.UpdateAt < C) :
    ∃ r, (s.getPreviousPageBankByID ctx C).1 = (some r, none) ∧ r ∈ s.db.bank ∧
      r.UpdateAt < C ∧ r.UpdateAt ≠ C ∧
      (∀ a ∈ s.db.bank, ¬ (r.UpdateAt < a.UpdateAt ∧ a.UpdateAt < C)) ∧
      (∀ a ∈ s.db.bank, a.UpdateAt < C → a.UpdateAt ≤ r.UpdateAt) := by
  obtain ⟨r, hr, hmem, hlt, hmax⟩ := getPreviousPageBankByID_some s ctx C hctx hdb h
  exact ⟨r, hr, hmem, hlt, ne_of_lt hlt,
    fun a ha hbetween => absurd hbetween.1 (not_lt.2 (hmax a ha hbetween.2)), hmax⟩

/-- C3 (as amended): when the query itself does not fail (the context is live
and the driver reports no failure), for every table (the empty one included)
and every cursor `C`: if `C` is greater than or equal to every record's
`update_at`, `getNextPageBankByID` returns no record and the error with message
"no next page found"; if `C` is less than or equal to every record's
`update_at`, `getPreviousPageBankByID` returns no record and the error with
message "no previous page found". -/
theorem boundary_not_found (s : store) (ctx : Context) (C : Time)
    (hctx : ctx.err = none) (hdb : s.db.failure = none) :
    ((∀ b ∈ s.db.bank, b.UpdateAt ≤ C) →
      ∃ e, (s.getNextPageBankByID ctx C).1 = (none, some e) ∧
        e = errorsNew "no next page found" ∧ e.Error = "no next page found") ∧
    ((∀ b ∈ s.db.bank, C ≤ b.UpdateAt) →
      ∃ e, (s.getPreviousPageBankByID ctx C).1 = (none, some e) ∧
        e = errorsNew "no previous page found" ∧ e.Error = "no previous page found") :=
  ⟨fun h => ⟨_, getNextPageBankByID_none s ctx C hctx hdb h, rfl, rfl⟩,
   fun h => ⟨_, getPreviousPageBankByID_none s ctx C hctx hdb h, rfl, rfl⟩⟩

/-- When `getNextPageBankByID` returns a record, the query did not fail. -/
theorem getNextPageBankByID_some_inv (s : store) (ctx : Context) (c : Time) (N : Bank)
    (hN : (s.getNextPageBankByID ctx c).1 = (some N, none)) :
    ctx.err = none ∧ s.db.failure = none := by
  unfold store.getNextPageBankByID DB.QueryRowContext at hN
  cases hctx : ctx.err with
  | some e =>
    rw [hctx] at hN
    by_cases he : errorsIs e .errNoRows <;> simp [he] at hN
  | none =>
    cases hdb : s.db.failure with
    | some e =>
      rw [hctx, hdb] at hN
      by_cases he : errorsIs e .errNoRows <;> simp [he] at hN
    | none => exact ⟨rfl, rfl⟩

/-- C4 (as amended): for every table and cursor `C` for which
`getNextPageBankByID` returns a record `N`, the call of
`getPreviousPageBankByID` on `N.update_at` that follows returns "no previous
page found" when every record has `update_at` above `C`, and otherwise returns
a record `P` of the table with the largest `update_at` that is at most `C`;
`P` is never `N`, never has `update_at` above `C`, and is either a record at
the cursor itself or the record `getPreviousPageBankByID` returns on `C`. -/
theorem previous_of_next (s : store) (ctx : Context) (C : Time) (N : Bank)
    (hN : (s.getNextPageBankByID ctx C).1 = (some N, none)) :
    ((∀ b ∈ s.db.bank, C < b.UpdateAt) →
      ((s.getNextPageBankByID ctx C).2.getPreviousPageBankByID ctx N.UpdateAt).1 =
        (none, some (errorsNew "no previous page found"))) ∧
    ((∃ b ∈ s.db.bank, b.UpdateAt ≤ C) →
      ∃ P, ((s.getNextPageBankByID ctx C).2.getPreviousPageBankByID ctx N.UpdateAt).1 =
          (some P, none) ∧
        P ∈ s.db.bank ∧ P.UpdateAt ≤ C ∧ ¬ (C < P.UpdateAt) ∧ P ≠ N ∧
        (∀ a ∈ s.db.bank, a.UpdateAt ≤ C → a.UpdateAt ≤ P.UpdateAt) ∧
        (P.UpdateAt = C ∨
          ((s.getNextPageBankByID ctx C).2.getPreviousPageBankByID ctx C).1 =
            (some P, none))) := by
  obtain ⟨hctx, hdb⟩ := getNextPageBankByID_some_inv s ctx C N hN
  -- `N` is a least record after the cursor
  have hNmin : C < N.UpdateAt ∧ ∀ a ∈ s.db.bank, C < a.UpdateAt → N.UpdateAt ≤ a.UpdateAt := by
    by_cases hex : ∃ b ∈ s.db.bank, C < b.UpdateAt
    · obtain ⟨r, hr, _, hlt, hmin⟩ := getNextPageBankByID_some s ctx C hctx hdb hex
      rw [hN] at hr
      have hrN : N = r := by simpa using hr
      subst hrN
      exact ⟨hlt, hmin⟩
    · have hall : ∀ b ∈ s.db.bank, b.UpdateAt ≤ C := fun b hb =>
        not_lt.1 (fun hlt => hex ⟨b, hb, hlt⟩)
      rw [getNextPageBankByID_none s ctx C hctx hdb hall] at hN
      simp at hN
  obtain ⟨hCN, hmin⟩ := hNmin
  rw [getNextPageBankByID_state]
  set s1 : store := { db := { s.db with calls := s.db.calls ++ [(nextSQL, C)] } } with hs1
  have hbank : s1.db.bank = s.db.bank := rfl
  have hdb1 : s1.db.failure = none := hdb
  have hbelow : ∀ a ∈ s.db.bank, a.UpdateAt < N.UpdateAt → a.UpdateAt ≤ C := fun a ha hlt =>
    not_lt.1 (fun hCa => absurd hlt (not_lt.2 (hmin a ha hCa)))
  refine ⟨fun hall => ?_, fun hex => ?_⟩
  · apply getPreviousPageBankByID_none s1 ctx N.UpdateAt hctx hdb1
    intro b hb
    exact hmin b hb (hall b hb)
  · obtain ⟨b, hb, hbC⟩ := hex
    obtain ⟨P, hP, hPmem, hPlt, hPmax⟩ :=
      getPreviousPageBankByID_some s1 ctx N.UpdateAt hctx hdb1 ⟨b, hb, lt_of_le_of_lt hbC hCN⟩
    have hPC : P.UpdateAt ≤ C := hbelow P hPmem hPlt
    refine ⟨P, hP, hPmem, hPC, not_lt.2 hPC, ?_, ?_, ?_⟩
    · intro hPN
      rw [hPN] at hPlt
      exact lt_irrefl _ hPlt
    · intro a ha haC
      exact hPmax a ha (lt_of_le_of_lt haC hCN)
    · by_cases hPeq : P.UpdateAt = C
      · exact Or.inl hPeq
      · right
        have hPltC : P.UpdateAt < C := lt_of_le_of_ne hPC hPeq
        have hfilter : s1.db.bank.filter (previousSQL.matches C) =
            s1.db.bank.filter (previousSQL.matches N.UpdateAt) := by
          apply List.filter_congr
          intro a ha
          have h1 := previousSQL_matches C a
          have h2 := previousSQL_matches N.UpdateAt a
          have hiff : a.UpdateAt < C ↔ a.UpdateAt < N.UpdateAt := by
            constructor
            · intro h
              exact lt_trans h hCN
            · intro h
              have haC : a.UpdateAt ≤ C := hbelow a ha h
              rcases lt_or_eq_of_le haC with hlt | heq
              · exact hlt
              · exact absurd (hPmax a ha h) (not_le.2 (heq ▸ hPltC))
          cases hm1 : previousSQL.matches C a <;> cases hm2 : previousSQL.matches N.UpdateAt a
          · rfl
          · exact absurd (h1.2 (hiff.2 (h2.1 hm2))) (by simp [hm1])
          · exact absurd (h2.2 (hiff.1 (h1.1 hm1))) (by simp [hm2])
          · rfl
        have hrows : previousSQL.rows s1.db.bank C = previousSQL.rows s1.db.bank N.UpdateAt := by
          rw [previousSQL_rows_eq, previousSQL_rows_eq, hfilter]
        rw [getPreviousPageBankByID_ok s1 ctx C hctx hdb1, hrows,
          ← getPreviousPageBankByID_ok s1 ctx N.UpdateAt hctx hdb1]
        exact hP

/-! ## Claims about the service -/

/-- C7: for every context, cursor and store state, `service.NextPage` returns
exactly the result of `store.getNextPageBankByID` and `service.PreviousPage`
exactly the result of `store.getPreviousPageBankByID` (the same record on
success; on failure no record and the very same error value), and leaves the
store in the state the store method left it. -/
theorem service_forwards (s : service) (ctx : Context) (c : Time) :
    (s.NextPage ctx c).1 = (s.store.getNextPageBankByID ctx c).1 ∧
    (s.NextPage ctx c).2 = { store := (s.store.getNextPageBankByID ctx c).2 } ∧
    ((s.NextPage ctx c).1.2.isSome && (s.NextPage ctx c).1.1.isSome) = false ∧
    (s.PreviousPage ctx c).1 = (s.store.getPreviousPageBankByID ctx c).1 ∧
    (s.PreviousPage ctx c).2 = { store := (s.store.getPreviousPageBankByID ctx c).2 } ∧
    ((s.PreviousPage ctx c).1.2.isSome && (s.PreviousPage ctx c).1.1.isSome) = false := by
  unfold service.NextPage service.PreviousPage store.getNextPageBankByID
    store.getPreviousPageBankByID
  refine ⟨?_, ?_, ?_, ?_, ?_, ?_⟩
  all_goals first
    | (rcases s.store.db.QueryRowContext ctx nextSQL c with ⟨res, db'⟩
       cases res with
       | error e => by_cases he : errorsIs e .errNoRows <;> simp [he]
       | ok b => simp)
    | (rcases s.store.db.QueryRowContext ctx previousSQL c with ⟨res, db'⟩
       cases res with
       | error e => by_cases he : errorsIs e .errNoRows <;> simp [he]
       | ok b => simp)

/-- The service returns the store's result and wraps the store's state. -/
theorem NextPage_eq (s : service) (ctx : Context) (c : Time) :
    s.NextPage ctx c =
      ((s.store.getNextPageBankByID ctx c).1, { store := (s.store.getNextPageBankByID ctx c).2 }) := by
  unfold service.NextPage store.getNextPageBankByID
  rcases s.store.db.QueryRowContext ctx nextSQL c with ⟨res, db'⟩
  cases res with
  | error e => by_cases he : errorsIs e .errNoRows <;> simp [he]
  | ok b => simp

theorem PreviousPage_eq (s : service) (ctx : Context) (c : Time) :
    s.PreviousPage ctx c =
      ((s.store.getPreviousPageBankByID ctx c).1,
        { store := (s.store.getPreviousPageBankByID ctx c).2 }) := by
  unfold service.PreviousPage store.getPreviousPageBankByID
  rcases s.store.db.QueryRowContext ctx previousSQL c with ⟨res, db'⟩
  cases res with
  | error e => by_cases he : errorsIs e .errNoRows <;> simp [he]
  | ok b => simp

/-- C8: for every failure `e` of the underlying query for which
`errors.Is(e, sql.ErrNoRows)` does not hold, `getNextPageBankByID` returns no
record and the error `errors.Wrap(e, "failed to get next page bank")`, whose
cause is `e` and whose message is "failed to get next page bank: " followed by
the message of `e`; `getPreviousPageBankByID` likewise with "failed to get
previous page bank"; and each method returns its "no ... page found" error if
and only if the query failed with the no-rows condition. -/
theorem store_error_kinds (s : store) (ctx : Context) (c : Time) :
    (∀ e, (s.db.QueryRowContext ctx nextSQL c).1 = .error e → errorsIs e .errNoRows = false →
      ∃ err, (s.getNextPageBankByID ctx c).1 = (none, some err) ∧
        err = errorsWrap e "failed to get next page bank" ∧ err.Unwrap = some e ∧
        err.Error = "failed to get next page bank: " ++ e.Error ∧
        err ≠ errorsNew "no next page found") ∧
    ((s.getNextPageBankByID ctx c).1 = (none, some (errorsNew "no next page found")) ↔
      ∃ e, (s.db.QueryRowContext ctx nextSQL c).1 = .error e ∧ errorsIs e .errNoRows = true) ∧
    (∀ e, (s.db.QueryRowContext ctx previousSQL c).1 = .error e →
      errorsIs e .errNoRows = false →
      ∃ err, (s.getPreviousPageBankByID ctx c).1 = (none, some err) ∧
        err = errorsWrap e "failed to get previous page bank" ∧ err.Unwrap = some e ∧
        err.Error = "failed to get previous page bank: " ++ e.Error ∧
        err ≠ errorsNew "no previous page found") ∧
    ((s.getPreviousPageBankByID ctx c).1 = (none, some (errorsNew "no previous page found")) ↔
      ∃ e, (s.db.QueryRowContext ctx previousSQL c).1 = .error e ∧
        errorsIs e .errNoRows = true) := by
  unfold store.getNextPageBankByID store.getPreviousPageBankByID
  refine ⟨?_, ?_, ?_, ?_⟩
  · rcases s.db.QueryRowContext ctx nextSQL c with ⟨res, db'⟩
    intro e hq he
    simp only at hq
    subst hq
    refine ⟨errorsWrap e "failed to get next page bank", by simp [he], rfl, rfl, ?_, ?_⟩
    · show "failed to get next page bank" ++ ": " ++ e.Error = _
      rw [String.append_assoc]
      rfl
    · simp [errorsWrap, errorsNew]
  · rcases s.db.QueryRowContext ctx nextSQL c with ⟨res, db'⟩
    cases res with
    | error e => by_cases he : errorsIs e .errNoRows <;> simp [he, errorsWrap, errorsNew]
    | ok b => simp
  · rcases s.db.QueryRowContext ctx previousSQL c with ⟨res, db'⟩
    intro e hq he
    simp only at hq
    subst hq
    refine ⟨errorsWrap e "failed to get previous page bank", by simp [he], rfl, rfl, ?_, ?_⟩
    · show "failed to get previous page bank" ++ ": " ++ e.Error = _
      rw [String.append_assoc]
      rfl
    · simp [errorsWrap, errorsNew]
  · rcases s.db.QueryRowContext ctx previousSQL c with ⟨res, db'⟩
    cases res with
    | error e => by_cases he : errorsIs e .errNoRows <;> simp [he, errorsWrap, errorsNew]
    | ok b => simp

/-! ## Forward traversal -/

theorem forwardTraversal_stop (n : Nat) (s s' : service) (ctx : Context) (c : Time)
    (x : Option Bank) (e : GoError) (h : s.NextPage ctx c = ((x, some e), s')) :
    forwardTraversal (n + 1) s ctx c = ([], some e, s') := by
  simp [forwardTraversal, h]

theorem forwardTraversal_step (n : Nat) (s s' : service) (ctx : Context) (c : Time)
    (b : Bank) (h : s.NextPage ctx c = ((some b, none), s')) :
    forwardTraversal (n + 1) s ctx c =
      (b :: (forwardTraversal n s' ctx b.UpdateAt).1,
        (forwardTraversal n s' ctx b.UpdateAt).2.1,
        (forwardTraversal n s' ctx b.UpdateAt).2.2) := by
  simp [forwardTraversal, h]

/-- Moving the cursor to a row after it leaves strictly fewer rows after the
cursor. -/
theorem rows_after_decrease (bank : List Bank) (c : Time) (r : Bank) (hr : r ∈ bank)
    (hc : c < r.UpdateAt) :
    (bank.filter (fun b => decide (r.UpdateAt < b.UpdateAt))).length <
      (bank.filter (fun b => decide (c < b.UpdateAt))).length := by
  have hsub : bank.filter (fun b => decide (r.UpdateAt < b.UpdateAt)) =
      (bank.filter (fun b => decide (c < b.UpdateAt))).filter
        (fun b => decide (r.UpdateAt < b.UpdateAt)) := by
    rw [List.filter_filter]
    apply List.filter_congr
    intro a _
    by_cases h : r.UpdateAt < a.UpdateAt
    · have : c < a.UpdateAt := lt_trans hc h
      simp [h, this]
    · simp [h]
  rw [hsub, List.length_filter_lt_length_iff_exists]
  exact ⟨r, List.mem_filter.2 ⟨hr, by simpa using hc⟩, by simp⟩

/-- The forward traversal on a database that answers, with more calls allowed
than rows lie after the cursor. -/
theorem forwardTraversal_spec (n : Nat) : ∀ (s : service) (ctx : Context) (C : Time),
    ctx.err = none → s.store.db.failure = none →
    (s.store.db.bank.filter (fun b => decide (C < b.UpdateAt))).length < n →
    (forwardTraversal n s ctx C).2.1 = some (errorsNew "no next page found") ∧
    ((forwardTraversal n s ctx C).1.map (fun b => b.UpdateAt)).Sorted (fun a b => a < b) ∧
    (∀ b ∈ (forwardTraversal n s ctx C).1, b ∈ s.store.db.bank) ∧
    (∀ t, t ∈ (forwardTraversal n s ctx C).1.map (fun b => b.UpdateAt) ↔
      C < t ∧ t ∈ s.store.db.bank.map (fun b => b.UpdateAt)) ∧
    (forwardTraversal n s ctx C).1.length ≤
      (s.store.db.bank.filter (fun b => decide (C < b.UpdateAt))).length ∧
    (forwardTraversal n s ctx C).2.2.store.db.bank = s.store.db.bank := by
  induction n with
  | zero => intro s ctx C _ _ h; exact absurd h (Nat.not_lt_zero _)
  | succ n ih =>
    intro s ctx C hctx hdb hfuel
    by_cases hex : ∃ b ∈ s.store.db.bank, C < b.UpdateAt
    · obtain ⟨r, hr, hmem, hlt, hmin⟩ := getNextPageBankByID_some s.store ctx C hctx hdb hex
      have hNP : s.NextPage ctx C =
          ((some r, none), { store := (s.store.getNextPageBankByID ctx C).2 }) := by
        rw [NextPage_eq, hr]
      rw [forwardTraversal_step n s _ ctx C r hNP, getNextPageBankByID_state]
      set s' : service :=
        { store := { db := { s.store.db with calls := s.store.db.calls ++ [(nextSQL, C)] } } }
      have hdec := rows_after_decrease s.store.db.bank C r hmem hlt
      obtain ⟨herr, hsorted, hin, hiff, hlen, hbank⟩ :=
        ih s' ctx r.UpdateAt hctx hdb (by
          show (s.store.db.bank.filter _).length < n
          omega)
      have hbank' : s'.store.db.bank = s.store.db.bank := rfl
      rw [hbank'] at hin hiff hlen hbank
      refine ⟨herr, ?_, ?_, ?_, ?_, hbank⟩
      · simp only [List.map_cons, List.sorted_cons]
        exact ⟨fun t ht => ((hiff t).1 ht).1, hsorted⟩
      · intro b hb
        rcases List.mem_cons.1 hb with rfl | hb
        · exact hmem
        · exact hin b hb
      · intro t
        simp only [List.map_cons, List.mem_cons]
        constructor
        · rintro (rfl | ht)
          · exact ⟨hlt, List.mem_map.2 ⟨r, hmem, rfl⟩⟩
          · exact ⟨lt_trans hlt ((hiff t).1 ht).1, ((hiff t).1 ht).2⟩
        · rintro ⟨hCt, ht⟩
          obtain ⟨a, ha, rfl⟩ := List.mem_map.1 ht
          rcases lt_or_eq_of_le (hmin a ha hCt) with h | h
          · exact Or.inr ((hiff _).2 ⟨h, List.mem_map.2 ⟨a, ha, rfl⟩⟩)
          · exact Or.inl h.symm
      · simp only [List.length_cons]
        omega
    · have hall : ∀ b ∈ s.store.db.bank, b.UpdateAt ≤ C := fun b hb =>
        not_lt.1 (fun hlt => hex ⟨b, hb, hlt⟩)
      have hNP : s.NextPage ctx C =
          ((none, some (errorsNew "no next page found")),
            { store := (s.store.getNextPageBankByID ctx C).2 }) := by
        rw [NextPage_eq, getNextPageBankByID_none s.store ctx C hctx hdb hall]
        rfl
      rw [forwardTraversal_stop n s _ ctx C none _ hNP, getNextPageBankByID_state]
      refine ⟨rfl, List.sorted_nil, fun b hb => absurd hb (List.not_mem_nil b), ?_,
        Nat.zero_le _, rfl⟩
      intro t
      constructor
      · intro ht
        exact absurd ht (List.not_mem_nil t)
      · rintro ⟨hCt, ht⟩
        obtain ⟨a, ha, rfl⟩ := List.mem_map.1 ht
        exact absurd hCt (not_lt.2 (hall a ha))

/-- C9 (as amended): on a table that does not change, when no query of the
traversal fails (the context is live and the driver reports no failure), the
forward traversal from cursor `C`, given more calls than the table has records,
ends with the error "no next page found" after at most as many successful calls
as the table has records; the records it returns are records of the table with
strictly increasing `update_at`; the `update_at` values it visits are exactly
the values of the table greater than `C`, each visited exactly once, so of
several records sharing one `update_at` a single one is visited. -/
theorem forwardTraversal_visits (n : Nat) (s : service) (ctx : Context) (C : Time)
    (hctx : ctx.err = none) (hdb : s.store.db.failure = none)
    (hfuel : s.store.db.bank.length < n) :
    (forwardTraversal n s ctx C).2.1 = some (errorsNew "no next page found") ∧
    (forwardTraversal n s ctx C).1.length ≤ s.store.db.bank.length ∧
    ((forwardTraversal n s ctx C).1.map (fun b => b.UpdateAt)).Sorted (fun a b => a < b) ∧
    (∀ b ∈ (forwardTraversal n s ctx C).1, b ∈ s.store.db.bank) ∧
    (∀ t, t ∈ (forwardTraversal n s ctx C).1.map (fun b => b.UpdateAt) ↔
      C < t ∧ t ∈ s.store.db.bank.map (fun b => b.UpdateAt)) ∧
    (∀ t, C < t → t ∈ s.store.db.bank.map (fun b => b.UpdateAt) →
      ((forwardTraversal n s ctx C).1.map (fun b => b.UpdateAt)).count t = 1) ∧
    (forwardTraversal n s ctx C).2.2.store.db.bank = s.store.db.bank := by
  have hle := List.length_filter_le (fun b => decide (C < b.UpdateAt)) s.store.db.bank
  obtain ⟨herr, hsorted, hin, hiff, hlen, hbank⟩ :=
    forwardTraversal_spec n s ctx C hctx hdb (lt_of_le_of_lt hle hfuel)
  refine ⟨herr, le_trans hlen hle, hsorted, hin, hiff, fun t hCt ht => ?_, hbank⟩
  exact List.count_eq_one_of_mem hsorted.nodup ((hiff t).2 ⟨hCt, ht⟩)

/-! ## Claims about the HTTP boundary -/

/-- The response `responseJSON` leaves on a writer whose header has not been
written yet. -/
theorem responseJSON_eq (w : ResponseWriter) (statusCode : Nat) (data : Data)
    (hw : w.wroteHeader = false) :
    responseJSON w statusCode data =
      { header := ("Content-Type", "application/json") ::
          w.header.filter (fun kv => decide (kv.1 ≠ "Content-Type")),
        wroteHeader := true, status := statusCode, sent := w.header,
        body := w.body ++ [jsonEncode data] } := by
  simp [responseJSON, ResponseWriter.WriteHeader, ResponseWriter.HeaderSet,
    ResponseWriter.Write, hw]

theorem getCurrentUpdateAtFromRequest_invalid (parse : String → Except GoError Time)
    (r : Request)
    (hbad : r.queryGet "current_update_at" = "" ∨
      ∃ e, parse (r.queryGet "current_update_at") = .error e) :
    ∃ e, getCurrentUpdateAtFromRequest parse r = (Time.zero, some e) := by
  unfold getCurrentUpdateAtFromRequest
  by_cases hempty : r.queryGet "current_update_at" = ""
  · exact ⟨errorsNew "missing current_update_at parameter", by simp [hempty]⟩
  · rcases hbad with h | ⟨e, he⟩
    · exact absurd h hempty
    · exact ⟨errorsWrap e "failed to parse current_update_at", by simp [hempty, he]⟩

theorem getCurrentUpdateAtFromRequest_valid (parse : String → Except GoError Time)
    (r : Request) (t : Time) (hparam : r.queryGet "current_update_at" ≠ "")
    (hparse : parse (r.queryGet "current_update_at") = .ok t) :
    getCurrentUpdateAtFromRequest parse r = (t, none) := by
  simp [getCurrentUpdateAtFromRequest, hparam, hparse]

/-- Every call of a service method changes the state of the database handle:
it logs one more call. -/
theorem service_call_logged (s : service) (ctx : Context) (c : Time) :
    (s.NextPage ctx c).2 ≠ s ∧ (s.PreviousPage ctx c).2 ≠ s := by
  rw [NextPage_eq, PreviousPage_eq, getNextPageBankByID_state, getPreviousPageBankByID_state]
  constructor
  · intro h
    have := congrArg (fun x : service => x.store.db.calls.length) h
    simp at this
  · intro h
    have := congrArg (fun x : service => x.store.db.calls.length) h
    simp at this

/-- C5: for every request whose `current_update_at` parameter is missing
(empty) or is rejected by `time.Parse`, `NextPageHandler` and
`PreviousPageHandler` respond with status 400, never 500, and the body
`{"error": "invalid timestamp"}`, and return the service in the state they
received it: no call was made on it, since every call of a service method
changes that state. -/
theorem invalid_cursor_bad_request (parse : String → Except GoError Time) (s : service)
    (w : ResponseWriter) (r : Request) (hw : w.wroteHeader = false)
    (hbad : r.queryGet "current_update_at" = "" ∨
      ∃ e, parse (r.queryGet "current_update_at") = .error e) :
    ((NextPageHandler parse s w r).1.status = 400 ∧
      (NextPageHandler parse s w r).1.status ≠ 500 ∧
      (NextPageHandler parse s w r).1.body =
        w.body ++ [Json.object [("error", JsonScalar.str "invalid timestamp")]] ∧
      (NextPageHandler parse s w r).2 = s) ∧
    ((PreviousPageHandler parse s w r).1.status = 400 ∧
      (PreviousPageHandler parse s w r).1.status ≠ 500 ∧
      (PreviousPageHandler parse s w r).1.body =
        w.body ++ [Json.object [("error", JsonScalar.str "invalid timestamp")]] ∧
      (PreviousPageHandler parse s w r).2 = s) ∧
    (∀ ctx c, (s.NextPage ctx c).2 ≠ s ∧ (s.PreviousPage ctx c).2 ≠ s) := by
  obtain ⟨e, he⟩ := getCurrentUpdateAtFromRequest_invalid parse r hbad
  have hN : NextPageHandler parse s w r =
      (responseError w StatusBadRequest (errorsNew "invalid timestamp"), s) := by
    simp [NextPageHandler, he]
  have hP : PreviousPageHandler parse s w r =
      (responseError w StatusBadRequest (errorsNew "invalid timestamp"), s) := by
    simp [PreviousPageHandler, he]
  rw [hN, hP]
  unfold responseError
  rw [responseJSON_eq w _ _ hw]
  have h45 : StatusBadRequest ≠ 500 := by decide
  exact ⟨⟨rfl, h45, rfl, rfl⟩, ⟨rfl, h45, rfl, rfl⟩, service_call_logged s⟩

/-- C6: for every request whose `current_update_at` parameter is accepted by
`time.Parse`, each handler responds with status 200 and the JSON encoding of
the record (the object of its nine fields under the names `id`, `code`,
`name`, `currency`, `url`, `create_at`, `create_by`, `update_at`, `update_by`)
when the service returns a record, and with status 500 and the
body `{"error": m}`, `m` the message of the returned error, when the service
returns an error of whatever kind; the status is never anything but 200 or
500. -/
theorem valid_cursor_response (parse : String → Except GoError Time) (s : service)
    (w : ResponseWriter) (r : Request) (t : Time) (hw : w.wroteHeader = false)
    (hparam : r.queryGet "current_update_at" ≠ "")
    (hparse : parse (r.queryGet "current_update_at") = .ok t) :
    ((∀ b, (s.NextPage r.ctx t).1 = (some b, none) →
        (NextPageHandler parse s w r).1.status = 200 ∧
        (NextPageHandler parse s w r).1.body = w.body ++
          [Json.object [("id", JsonScalar.int b.ID), ("code", JsonScalar.str b.Code),
            ("name", JsonScalar.str b.Name), ("currency", JsonScalar.str b.Currency),
            ("url", JsonScalar.str b.URL), ("create_at", JsonScalar.time b.CreateAt),
            ("create_by", JsonScalar.str b.CreateBy),
            ("update_at", JsonScalar.time b.UpdateAt),
            ("update_by", JsonScalar.str b.UpdateBy)]]) ∧
      (∀ x e, (s.NextPage r.ctx t).1 = (x, some e) →
        (NextPageHandler parse s w r).1.status = 500 ∧
        (NextPageHandler parse s w r).1.body =
          w.body ++ [Json.object [("error", JsonScalar.str e.Error)]]) ∧
      ((NextPageHandler parse s w r).1.status = 200 ∨
        (NextPageHandler parse s w r).1.status = 500)) ∧
    ((∀ b, (s.PreviousPage r.ctx t).1 = (some b, none) →
        (PreviousPageHandler parse s w r).1.status = 200 ∧
        (PreviousPageHandler parse s w r).1.body = w.body ++
          [Json.object [("id", JsonScalar.int b.ID), ("code", JsonScalar.str b.Code),
            ("name", JsonScalar.str b.Name), ("currency", JsonScalar.str b.Currency),
            ("url", JsonScalar.str b.URL), ("create_at", JsonScalar.time b.CreateAt),
            ("create_by", JsonScalar.str b.CreateBy),
            ("update_at", JsonScalar.time b.UpdateAt),
            ("update_by", JsonScalar.str b.UpdateBy)]]) ∧
      (∀ x e, (s.PreviousPage r.ctx t).1 = (x, some e) →
        (PreviousPageHandler parse s w r).1.status = 500 ∧
        (PreviousPageHandler parse s w r).1.body =
          w.body ++ [Json.object [("error", JsonScalar.str e.Error)]]) ∧
      ((PreviousPageHandler parse s w r).1.status = 200 ∨
        (PreviousPageHandler parse s w r).1.status = 500)) := by
  have hcur := getCurrentUpdateAtFromRequest_valid parse r t hparam hparse
  constructor
  · rcases hres : s.NextPage r.ctx t with ⟨⟨x, err⟩, s'⟩
    cases err with
    | some e =>
      have hH : NextPageHandler parse s w r =
          (responseError w StatusInternalServerError e, s') := by
        simp [NextPageHandler, hcur, hres]
      rw [hH]
      unfold responseError
      rw [responseJSON_eq w _ _ hw]
      refine ⟨fun b hb => by simp at hb, fun x' e' hx => ?_, Or.inr rfl⟩
      have hee : e = e' := by simpa using (congrArg (fun p => p.2) hx)
      subst hee
      exact ⟨rfl, rfl⟩
    | none =>
      have hH : NextPageHandler parse s w r = (responseJSON w StatusOK (.bank x), s') := by
        simp [NextPageHandler, hcur, hres]
      rw [hH, responseJSON_eq w _ _ hw]
      refine ⟨fun b hb => ?_, fun x' e' hx => by simp at hx, Or.inl rfl⟩
      have hxb : x = some b := by simpa using (congrArg (fun p => p.1) hb)
      subst hxb
      exact ⟨rfl, rfl⟩
  · rcases hres : s.PreviousPage r.ctx t with ⟨⟨x, err⟩, s'⟩
    cases err with
    | some e =>
      have hH : PreviousPageHandler parse s w r =
          (responseError w StatusInternalServerError e, s') := by
        simp [PreviousPageHandler, hcur, hres]
      rw [hH]
      unfold responseError
      rw [responseJSON_eq w _ _ hw]
      refine ⟨fun b hb => by simp at hb, fun x' e' hx => ?_, Or.inr rfl⟩
      have hee : e = e' := by simpa using (congrArg (fun p => p.2) hx)
      subst hee
      exact ⟨rfl, rfl⟩
    | none =>
      have hH : PreviousPageHandler parse s w r =
          (responseJSON w StatusOK (.bank x), s') := by
        simp [PreviousPageHandler, hcur, hres]
      rw [hH, responseJSON_eq w _ _ hw]
      refine ⟨fun b hb => ?_, fun x' e' hx => by simp at hx, Or.inl rfl⟩
      have hxb : x = some b := by simpa using (congrArg (fun p => p.1) hb)
      subst hxb
      exact ⟨rfl, rfl⟩

/-- C10: on a writer whose header has not been written yet, `responseJSON`
(and `responseError` through it) sends the status code with the header map as
it stood before the call: the headers sent are exactly the headers present
before the call, and hold no `Content-Type: application/json` unless it was
there before (on the writer a handler receives, no header at all is sent);
`Header().Set` afterwards puts the content type into the header map only; the
status code is the one requested and the JSON encoding of the payload is
appended to the body. -/
theorem content_type_set_after_commit (w : ResponseWriter) (statusCode : Nat) (data : Data)
    (err : GoError) (hw : w.wroteHeader = false) :
    ((responseJSON w statusCode data).sent = w.header ∧
      (("Content-Type", "application/json") ∉ w.header →
        ("Content-Type", "application/json") ∉ (responseJSON w statusCode data).sent) ∧
      (responseJSON w statusCode data).header =
        ("Content-Type", "application/json") ::
          w.header.filter (fun kv => decide (kv.1 ≠ "Content-Type")) ∧
      (responseJSON w statusCode data).wroteHeader = true ∧
      (responseJSON w statusCode data).status = statusCode ∧
      (responseJSON w statusCode data).body = w.body ++ [jsonEncode data]) ∧
    (responseError w statusCode err =
        responseJSON w statusCode (.stringMap [("error", err.Error)]) ∧
      (responseError w statusCode err).sent = w.header ∧
      (responseError w statusCode err).status = statusCode ∧
      (responseError w statusCode err).body =
        w.body ++ [Json.object [("error", JsonScalar.str err.Error)]]) ∧
    ((w.WriteHeader statusCode).sent = w.header ∧
      ((w.WriteHeader statusCode).HeaderSet "Content-Type" "application/json").sent =
        (w.WriteHeader statusCode).sent) ∧
    ((responseJSON ResponseWriter.fresh statusCode data).sent = [] ∧
      (responseError ResponseWriter.fresh statusCode err).sent = []) := by
  unfold responseError
  rw [responseJSON_eq w _ _ hw, responseJSON_eq w _ _ hw,
    responseJSON_eq ResponseWriter.fresh _ _ rfl, responseJSON_eq ResponseWriter.fresh _ _ rfl]
  refine ⟨⟨rfl, fun h => h, rfl, rfl, rfl, rfl⟩, ⟨rfl, rfl, rfl, rfl⟩, ⟨?_, rfl⟩, rfl, rfl⟩
  simp [ResponseWriter.WriteHeader, hw]

/-! ## The claims on the scenario -/

theorem getNextPageBankByID_smallest_after_witness :
    ((healthy scenario).store.getNextPageBankByID live 1704067200).1 =
        (some (mkBank 2 1704153600), none) ∧
    ∃ r, ((healthy scenario).store.getNextPageBankByID live 1704067200).1 = (some r, none) ∧
      r ∈ (healthy scenario).store.db.bank ∧ (1704067200 : Time) < r.UpdateAt ∧
      r.UpdateAt ≠ 1704067200 ∧
      (∀ a ∈ (healthy scenario).store.db.bank,
        ¬ ((1704067200 : Time) < a.UpdateAt ∧ a.UpdateAt < r.UpdateAt)) ∧
      (∀ a ∈ (healthy scenario).store.db.bank,
        (1704067200 : Time) < a.UpdateAt → r.UpdateAt ≤ a.UpdateAt) :=
  ⟨by decide,
   getNextPageBankByID_smallest_after (healthy scenario).store live 1704067200 rfl rfl
    ⟨mkBank 3 1704240000, by decide, by decide⟩⟩

theorem getPreviousPageBankByID_largest_before_witness :
    ((healthy scenario).store.getPreviousPageBankByID live 1704240000).1 =
        (some (mkBank 2 1704153600), none) ∧
    ∃ r, ((healthy scenario).store.getPreviousPageBankByID live 1704240000).1 =
        (some r, none) ∧
      r ∈ (healthy scenario).store.db.bank ∧ r.UpdateAt < (1704240000 : Time) ∧
      r.UpdateAt ≠ 1704240000 ∧
      (∀ a ∈ (healthy scenario).store.db.bank,
        ¬ (r.UpdateAt < a.UpdateAt ∧ a.UpdateAt < (1704240000 : Time))) ∧
      (∀ a ∈ (healthy scenario).store.db.bank,
        a.UpdateAt < (1704240000 : Time) → a.UpdateAt ≤ r.UpdateAt) :=
  ⟨by decide,
   getPreviousPageBankByID_largest_before (healthy scenario).store live 1704240000 rfl rfl
    ⟨mkBank 1 1704067200, by decide, by decide⟩⟩

theorem boundary_not_found_witness :
    (∃ e, ((healthy scenario).store.getNextPageBankByID live 1704240000).1 = (none, some e) ∧
      e = errorsNew "no next page found" ∧ e.Error = "no next page found") ∧
    (∃ e, ((healthy scenario).store.getPreviousPageBankByID live 1704067200).1 =
        (none, some e) ∧
      e = errorsNew "no previous page found" ∧ e.Error = "no previous page found") ∧
    (∃ e, ((healthy []).store.getNextPageBankByID live 0).1 = (none, some e) ∧
      e = errorsNew "no next page found" ∧ e.Error = "no next page found") :=
  ⟨(boundary_not_found (healthy scenario).store live 1704240000 rfl rfl).1 (by decide),
   (boundary_not_found (healthy scenario).store live 1704067200 rfl rfl).2 (by decide),
   (boundary_not_found (healthy []).store live 0 rfl rfl).1 (by decide)⟩

/-- C3 as stated fails: on the scenario's table with the cursor at its last
record (so the cursor is greater than or equal to every `update_at`) and a
cancelled context, `getNextPageBankByID` returns no record and the wrapped
context error, not "no next page found"; with the cursor at the first record,
`getPreviousPageBankByID` likewise returns the wrapped error, not "no previous
page found". -/
theorem boundary_cancelled_store_error :
    (∀ b ∈ (healthy scenario).store.db.bank, b.UpdateAt ≤ (1704240000 : Time)) ∧
    ((healthy scenario).store.getNextPageBankByID cancelled 1704240000).1 =
      (none, some (errorsWrap (.foreign "context canceled") "failed to get next page bank")) ∧
    ((healthy scenario).store.getNextPageBankByID cancelled 1704240000).1 ≠
      (none, some (errorsNew "no next page found")) ∧
    (∀ b ∈ (healthy scenario).store.db.bank, (1704067200 : Time) ≤ b.UpdateAt) ∧
    ((healthy scenario).store.getPreviousPageBankByID cancelled 1704067200).1 =
      (none,
        some (errorsWrap (.foreign "context canceled") "failed to get previous page bank")) ∧
    ((healthy scenario).store.getPreviousPageBankByID cancelled 1704067200).1 ≠
      (none, some (errorsNew "no previous page found")) := by
  refine ⟨by decide, by decide, by decide, by decide, by decide, by decide⟩

/-- C9 as stated fails: on the scenario's table behind a driver that reports a
connection failure, the forward traversal from cursor 0 with four calls allowed
ends at its first call with the wrapped driver error, not with "no next page
found", and visits none of the three `update_at` values above the cursor. -/
theorem forwardTraversal_store_error :
    unreachable.db.bank.length < 4 ∧
    (forwardTraversal 4 { store := unreachable } live 0).1 = [] ∧
    (forwardTraversal 4 { store := unreachable } live 0).2.1 =
      some (errorsWrap (.foreign "connection refused") "failed to get next page bank") ∧
    (forwardTraversal 4 { store := unreachable } live 0).2.1 ≠
      some (errorsNew "no next page found") ∧
    (unreachable.db.bank.map (fun b => b.UpdateAt)).filter (fun t => decide ((0 : Time) < t)) =
      [1704067200, 1704153600, 1704240000] := by
  refine ⟨by decide, by decide, by decide, by decide, by decide⟩

/-- C4 as stated fails: on the table holding a single record at instant 3 and
the cursor 2, `getNextPageBankByID` returns that record, and
`getPreviousPageBankByID` on its `update_at` returns no record but the error
"no previous page found". -/
theorem next_then_previous_not_found :
    ((healthy lonely).store.getNextPageBankByID live 2).1 = (some (mkBank 1 3), none) ∧
    (((healthy lonely).store.getNextPageBankByID live 2).2.getPreviousPageBankByID live
        (mkBank 1 3).UpdateAt).1 = (none, some (errorsNew "no previous page found")) ∧
    ¬ ∃ P, (((healthy lonely).store.getNextPageBankByID live 2).2.getPreviousPageBankByID live
        (mkBank 1 3).UpdateAt).1.1 = some P := by
  refine ⟨by decide, by decide, ?_⟩
  rintro ⟨P, hP⟩
  have hnone : (((healthy lonely).store.getNextPageBankByID live 2).2.getPreviousPageBankByID
      live (mkBank 1 3).UpdateAt).1.1 = none := by decide
  rw [hnone] at hP
  exact Option.noConfusion hP

theorem previous_of_next_witness :
    ((healthy scenario).store.getNextPageBankByID live 1704067200).1 =
        (some (mkBank 2 1704153600), none) ∧
    (∃ P, (((healthy scenario).store.getNextPageBankByID live 1704067200).2.getPreviousPageBankByID
          live (mkBank 2 1704153600).UpdateAt).1 = (some P, none) ∧
      P.UpdateAt ≤ (1704067200 : Time) ∧ P ≠ mkBank 2 1704153600) ∧
    (((healthy lonely).store.getNextPageBankByID live 2).2.getPreviousPageBankByID live
        (mkBank 1 3).UpdateAt).1 = (none, some (errorsNew "no previous page found")) := by
  refine ⟨by decide, ?_, ?_⟩
  · obtain ⟨P, hP, _, hle, _, hne, _⟩ :=
      (previous_of_next (healthy scenario).store live 1704067200 (mkBank 2 1704153600)
        (by decide)).2 ⟨mkBank 1 1704067200, by decide, by decide⟩
    exact ⟨P, hP, hle, hne⟩
  · exact (previous_of_next (healthy lonely).store live 2 (mkBank 1 3) (by decide)).1
      (by decide)

theorem store_error_kinds_witness :
    (unreachable.db.QueryRowContext live nextSQL 0).1 = .error (.foreign "connection refused") ∧
    errorsIs (.foreign "connection refused") .errNoRows = false ∧
    ∃ err, (unreachable.getNextPageBankByID live 0).1 = (none, some err) ∧
      err = errorsWrap (.foreign "connection refused") "failed to get next page bank" ∧
      err.Unwrap = some (.foreign "connection refused") ∧
      err.Error = "failed to get next page bank: " ++ (GoError.foreign "connection refused").Error ∧
      err ≠ errorsNew "no next page found" :=
  ⟨rfl, rfl,
   (store_error_kinds unreachable live 0).1 (.foreign "connection refused") rfl rfl⟩

theorem forwardTraversal_visits_witness :
    (forwardTraversal 5 (healthy tied) live 10).1 = [mkBank 2 20, mkBank 4 30] ∧
    (forwardTraversal 5 (healthy tied) live 10).2.1 = some (errorsNew "no next page found") ∧
    (forwardTraversal 5 (healthy tied) live 10).1.length ≤ (healthy tied).store.db.bank.length ∧
    ((forwardTraversal 5 (healthy tied) live 10).1.map (fun b => b.UpdateAt)).Sorted
      (fun a b => a < b) ∧
    ((forwardTraversal 5 (healthy tied) live 10).1.map (fun b => b.UpdateAt)).count 20 = 1 := by
  obtain ⟨herr, hlen, hsorted, _, _, hcount, _⟩ :=
    forwardTraversal_visits 5 (healthy tied) live 10 rfl rfl (by decide)
  exact ⟨by decide, herr, hlen, hsorted, hcount 20 (by decide) (by decide)⟩

theorem invalid_cursor_bad_request_witness :
    ((NextPageHandler scenarioParse (healthy scenario) .fresh
        (get [("current_update_at", "not-a-date")])).1.status = 400 ∧
      (NextPageHandler scenarioParse (healthy scenario) .fresh
        (get [("current_update_at", "not-a-date")])).2 = healthy scenario) ∧
    ((PreviousPageHandler scenarioParse (healthy scenario) .fresh (get [])).1.status = 400 ∧
      (PreviousPageHandler scenarioParse (healthy scenario) .fresh (get [])).1.body =
        [Json.object [("error", JsonScalar.str "invalid timestamp")]]) := by
  have h1 := invalid_cursor_bad_request scenarioParse (healthy scenario) .fresh
    (get [("current_update_at", "not-a-date")]) rfl (Or.inr ⟨_, rfl⟩)
  have h2 := invalid_cursor_bad_request scenarioParse (healthy scenario) .fresh
    (get []) rfl (Or.inl rfl)
  exact ⟨⟨h1.1.1, h1.1.2.2.2⟩, ⟨h2.2.1.1, h2.2.1.2.2.1⟩⟩

theorem valid_cursor_response_witness :
    ((NextPageHandler scenarioParse (healthy ledger) .fresh
        (get [("current_update_at", "2024-01-01T00:00:00Z")])).1.status = 200 ∧
      (NextPageHandler scenarioParse (healthy ledger) .fresh
        (get [("current_update_at", "2024-01-01T00:00:00Z")])).1.body =
          [Json.object [("id", JsonScalar.int 7), ("code", JsonScalar.str "BCA"),
            ("name", JsonScalar.str "Bank Central Asia"), ("currency", JsonScalar.str "IDR"),
            ("url", JsonScalar.str "https://bca.example"),
            ("create_at", JsonScalar.time 1700000000),
            ("create_by", JsonScalar.str "alice"),
            ("update_at", JsonScalar.time 1704153600),
            ("update_by", JsonScalar.str "bob")]]) ∧
    ((PreviousPageHandler scenarioParse (healthy ledger) .fresh
        (get [("current_update_at", "2024-01-03T00:00:00Z")])).1.status = 200 ∧
      (PreviousPageHandler scenarioParse (healthy ledger) .fresh
        (get [("current_update_at", "2024-01-03T00:00:00Z")])).1.body =
          [Json.object [("id", JsonScalar.int 7), ("code", JsonScalar.str "BCA"),
            ("name", JsonScalar.str "Bank Central Asia"), ("currency", JsonScalar.str "IDR"),
            ("url", JsonScalar.str "https://bca.example"),
            ("create_at", JsonScalar.time 1700000000),
            ("create_by", JsonScalar.str "alice"),
            ("update_at", JsonScalar.time 1704153600),
            ("update_by", JsonScalar.str "bob")]]) ∧
    ((NextPageHandler scenarioParse (healthy ledger) .fresh
        (get [("current_update_at", "2024-01-03T00:00:00Z")])).1.status = 500 ∧
      (NextPageHandler scenarioParse (healthy ledger) .fresh
        (get [("current_update_at", "2024-01-03T00:00:00Z")])).1.body =
          [Json.object [("error", JsonScalar.str "no next page found")]]) :=
  ⟨(valid_cursor_response scenarioParse (healthy ledger) .fresh
      (get [("current_update_at", "2024-01-01T00:00:00Z")]) 1704067200 rfl
      (by decide) rfl).1.1 sampleBank (by decide),
   (valid_cursor_response scenarioParse (healthy ledger) .fresh
      (get [("current_update_at", "2024-01-03T00:00:00Z")]) 1704240000 rfl
      (by decide) rfl).2.1 sampleBank (by decide),
   (valid_cursor_response scenarioParse (healthy ledger) .fresh
      (get [("current_update_at", "2024-01-03T00:00:00Z")]) 1704240000 rfl
      (by decide) rfl).1.2.1 none (errorsNew "no next page found") (by decide)⟩

theorem content_type_set_after_commit_witness :
    (responseJSON .fresh 200 (.bank (some (mkBank 2 1704153600)))).sent = [] ∧
    (responseJSON .fresh 200 (.bank (some (mkBank 2 1704153600)))).header =
      [("Content-Type", "application/json")] ∧
    (responseJSON .fresh 200 (.bank (some (mkBank 2 1704153600)))).status = 200 :=
  have h := content_type_set_after_commit .fresh 200 (.bank (some (mkBank 2 1704153600)))
    (errorsNew "invalid timestamp") rfl
  ⟨h.1.1, h.1.2.2.1, h.1.2.2.2.2.1⟩

end Task5
